import Mathlib

/-!
Shallow embedding of `cmd/cmd.go` of tmsick/fish-docker-completion.

Go strings are modelled as `List Char` (all inputs of interest are ASCII, so
byte indexing and char indexing coincide).  Help text is modelled as the list
of its lines (the `bufio.Scanner` line splitting is not re-modelled).  Go maps
(`map[string][]string`, `map[int]int`, ...) are modelled as association lists
in key-insertion order; wherever the Go code *iterates* over a map (whose
iteration order is unspecified and randomized in Go), the model takes the
iteration order as an explicit parameter, constrained to be a permutation of
the map's key set.  A Go slice-out-of-range panic is modelled by `Option`
(`none` = panic).
-/

set_option maxRecDepth 20000

namespace FDC

abbrev Line := List Char

/-- Convert a string literal to the `List Char` model. -/
def str (s : String) : Line := s.data

/-- `unicode.IsSpace` restricted to ASCII (used by `strings.TrimSpace`). -/
def isGoSpace (c : Char) : Bool :=
  c = ' ' || c = '\t' || c = '\n' || c = (Char.ofNat 11) || c = (Char.ofNat 12) || c = '\r'

/-- Go regexp `\s` (Perl character class): `[\t\n\f\r ]`. -/
def isPerlSpace (c : Char) : Bool :=
  c = ' ' || c = '\t' || c = '\n' || c = (Char.ofNat 12) || c = '\r'

def isUpperCh (c : Char) : Bool := decide ('A' ≤ c) && decide (c ≤ 'Z')

def isLowerCh (c : Char) : Bool := decide ('a' ≤ c) && decide (c ≤ 'z')

/-- Character class of the regexp `[A-Z_]`. -/
def isUpperUnd (c : Char) : Bool := isUpperCh c || c = '_'

/-- Character class of the regexp `[a-z_]`. -/
def isLowerUnd (c : Char) : Bool := isLowerCh c || c = '_'

/-- `strings.TrimSpace` (ASCII model). -/
def trimSpace (l : Line) : Line :=
  ((l.dropWhile isGoSpace).reverse.dropWhile isGoSpace).reverse

/-- `strings.HasPrefix p l`-style check: is `p` a prefix of `l`? -/
def isPrefOf : Line → Line → Bool
  | [], _ => true
  | _ :: _, [] => false
  | p :: ps, c :: cs => p = c && isPrefOf ps cs

/-- `strings.TrimPrefix l p`: drop `p` from the front of `l` if present. -/
def trimPref (l p : Line) : Line :=
  if isPrefOf p l then l.drop p.length else l

/-- `strings.HasSuffix`. -/
def isSuffOf (s l : Line) : Bool := isPrefOf s.reverse l.reverse

/-- `strings.TrimSuffix l s`: drop `s` from the end of `l` if present. -/
def trimSuff (l s : Line) : Line :=
  if isSuffOf s l then l.take (l.length - s.length) else l

/-- `strings.Split l " "`: split on every single space, keeping empty fields;
`Split("", " ") = [""]`. -/
def splitSp : Line → List Line
  | [] => [[]]
  | c :: rest =>
    let r := splitSp rest
    if c = ' ' then [] :: r
    else
      match r with
      | [] => [[c]]
      | h :: t => (c :: h) :: t

/-- `strings.Join chain " "`. -/
def joinSp : List Line → Line
  | [] => []
  | [l] => l
  | l :: rest => l ++ ' ' :: joinSp rest

/-- `c.ChainString()`. -/
def chainString (chain : List Line) : Line := joinSp chain

/-- The regexp `^\s*$` of `scanHelpMessage` (a blank line). -/
def isBlankLine (l : Line) : Bool := l.all isPerlSpace

/-! ## SectionScanner (`scanHelpMessage`)

`linesMap : map[string][]string` is modelled as an association list in key
insertion order. -/

abbrev AList := List (Line × List Line)

/-- `linesMap[k] = append(linesMap[k], v)`: append `v` to the entry of `k`,
creating the entry if absent (Go `append` on a `nil` map entry). -/
def addTo : AList → Line → Line → AList
  | [], k, v => [(k, [v])]
  | (k', vs) :: rest, k, v =>
    if k' = k then (k', vs ++ [v]) :: rest else (k', vs) :: addTo rest k v

/-- The first marker (in argument order) that is a prefix of `line`;
the Go loop over `markers` with `break`. -/
def firstMarker (markers : List Line) (line : Line) : Option Line :=
  markers.find? (fun m => isPrefOf m line)

/-- One iteration of the scanner loop of `scanHelpMessage`.  The state is
`(linesMap, currentMarker)`; as in the Go code, `currentMarker = ""` (here
`[]`) means "no active marker". -/
def scanStep (markers : List Line) (st : AList × Line) (line : Line) : AList × Line :=
  if isBlankLine line then (st.1, [])
  else
    match firstMarker markers line with
    | some m =>
      let trailer := trimPref line m
      if trimSpace trailer = [] then (st.1, m) else (addTo st.1 m trailer, m)
    | none =>
      if st.2 = [] then st else (addTo st.1 st.2 line, st.2)

/-- `(*Command).scanHelpMessage(markers...)` over the help-message lines. -/
def scanHelp (markers : List Line) (lines : List Line) : AList :=
  (lines.foldl (scanStep markers) ([], [])).1

/-! ## ColumnSplitter (`splitDescription`) -/

/-- The match start positions `+ 1` of the regexp `\s[A-Z]` on a line, i.e.
the column indices voted for by this line (`descHeadIndices[tuple[0]+1]++`).
Matches of this two-character pattern can never overlap, so the set of
regexp matches equals the set of positions `i-1` with `l[i-1]` a space and
`l[i]` an upper-case letter. -/
def candidates (l : Line) : List Nat :=
  (List.range l.length).filter
    (fun i => decide (i ≠ 0) && isPerlSpace (l.getD (i - 1) 'x') && isUpperCh (l.getD i 'x'))

/-- The vote count of column `i` over a line group (`descHeadIndices[i]`). -/
def cnt (g : List Line) (i : Nat) : Nat := ((g.map candidates).flatten).count i

def maxLen (g : List Line) : Nat := (g.map List.length).foldr max 0

/-- The key set of the Go map `descHeadIndices`, enumerated in ascending
order.  Any iteration order of the map is a permutation of this list. -/
def support (g : List Line) : List Nat :=
  (List.range (maxLen g + 1)).filter (fun i => decide (cnt g i ≠ 0))

/-- The selection loop
`for k, v := range descHeadIndices { if v > votes { votes = v; descHeadIndex = k } }`,
iterating the map in the order `order`.  The state is
`(descHeadIndex, votes)`, initially `(0, 0)`. -/
def selGo (c : Nat → Nat) : List Nat → Nat × Nat → Nat × Nat
  | [], st => st
  | k :: rest, st => selGo c rest (if c k > st.2 then (k, c k) else st)

/-- The split column chosen by `splitDescription` for one group when the
vote map is iterated in the order `order`. -/
def selectIdx (order : List Nat) (c : Nat → Nat) : Nat :=
  (selGo c order ((0, 0) : Nat × Nat)).1

/-- Go `line[:i]` and `line[i:]`; `none` models the runtime panic
"slice bounds out of range" when `i > len(line)`. -/
def goSlice (l : Line) (i : Nat) : Option (Line × Line) :=
  if i ≤ l.length then some (l.take i, l.drop i) else none

/-- Split every line of a group at its chosen column
(the inner `for _, line := range lines` loop of `splitDescription`);
`order` is the iteration order of the `descHeadIndices` map. -/
def splitGroup (order : List Nat) (g : List Line) : Option (List (Line × Line)) :=
  let i := selectIdx order (cnt g)
  g.foldr (fun l acc =>
    match goSlice l i, acc with
    | some p, some ps => some (p :: ps)
    | _, _ => none) (some [])

/-- The iteration order of the per-group vote map, one order per group.
A run of the Go program corresponds to some `vo` with
`(vo g).Perm (support g)` for every `g`. -/
abbrev VoteOrd := List Line → List Nat

abbrev AList2 := List (Line × List (Line × Line))

/-- `splitDescription(linesMap)`: build `pairsMap`, `none` on panic. -/
def splitDesc (vo : VoteOrd) : AList → Option AList2
  | [] => some []
  | (k, g) :: rest =>
    match splitGroup (vo g) g, splitDesc vo rest with
    | some ps, some r => some ((k, ps) :: r)
    | _, _ => none

/-! ## ArgumentClassifier (`setArgument`) -/

/-- The bit-flag constants `ArgumentNumber*` (`1 << iota`). -/
def argConfig : Nat := 1
def argContainer : Nat := 2
def argImage : Nat := 4
def argNetwork : Nat := 8
def argNode : Nat := 16
def argPlugin : Nat := 32
def argSecret : Nat := 64
def argService : Nat := 128
def argStack : Nat := 256
def argVolume : Nat := 512
def argFile : Nat := 1024

/-- Maximal runs of characters satisfying `p` (regexp `FindAllString` for a
character-class-plus pattern); `cur` is the current run, reversed. -/
def runsGo (p : Char → Bool) : Line → Line → List Line
  | cur, [] => if cur = [] then [] else [cur.reverse]
  | cur, c :: rest =>
    if p c then runsGo p (c :: cur) rest
    else if cur = [] then runsGo p [] rest
    else cur.reverse :: runsGo p [] rest

/-- `uppercasedPattern.FindAllString(t, -1)` for the regexp `[A-Z_]+`. -/
def upperRuns (t : Line) : List Line := runsGo isUpperUnd [] t

/-- `lowercasedPattern.FindAllString(t, -1)` for the regexp `[a-z_]+`. -/
def lowerRuns (t : Line) : List Line := runsGo isLowerUnd [] t

/-- The `switch match` over upper-case tokens in `setArgument`. -/
def upperFlag (w : Line) : Nat :=
  if w = str "CONFIG" then argConfig
  else if w = str "CONTAINER" then argContainer
  else if w = str "IMAGE" ∨ w = str "SOURCE_IMAGE" ∨ w = str "TARGET_IMAGE" then argImage
  else if w = str "NETWORK" then argNetwork
  else if w = str "NODE" then argNode
  else if w = str "PLUGIN" then argPlugin
  else if w = str "SECRET" then argSecret
  else if w = str "SERVICE" then argService
  else if w = str "STACK" then argStack
  else if w = str "VOLUME" then argVolume
  else if w = str "KEY_FILE" then argFile
  else 0

/-- The `switch match` over lower-case tokens in `setArgument`. -/
def lowerFlag (w : Line) : Nat := if w = str "file" then argFile else 0

/-- The two `FindAllString` loops of one iteration of the line loop:
`number |= ...` over all matched tokens of the stripped line `t`. -/
def lineFlags (t : Line) (n : Nat) : Nat :=
  (lowerRuns t).foldl (fun m w => m ||| lowerFlag w)
    ((upperRuns t).foldl (fun m w => m ||| upperFlag w) n)

/-- The `for _, line := range lines` loop of `setArgument`.  On the first
line whose trimmed text does not start with the chain string the Go code
returns before the assignment `c.Arguments = number`, leaving the freshly
created node's `Arguments` field at its zero value. -/
def argGo (cs : Line) : List Line → Nat → Nat
  | [], n => n
  | l :: ls, n =>
    let line := trimSpace l
    let t := trimPref line cs
    if t = line then 0
    else argGo cs ls (lineFlags t n)

/-- The usage-section line group: `scanHelpMessage("Usage:")` holds at most
one key, so the Go `for _, v := range linesMap { lines = v; break }`
(an arbitrary map entry) is its head entry. -/
def usageGroup (help : List Line) : List Line :=
  ((scanHelp [str "Usage:"] help).head?.map Prod.snd).getD []

/-- `(*Command).setArgument()`: the value stored in `c.Arguments`. -/
def setArgument (chain : List Line) (help : List Line) : Nat :=
  argGo (chainString chain) (usageGroup help) 0

/-! ## Data model and errors -/

structure Opt where
  desc : Line
  long : Line
  short : Line
deriving DecidableEq, Repr

inductive Command : Type where
  | mk : List Line → Line → Nat → List Opt → List Command → Command

def Command.chain : Command → List Line | .mk c _ _ _ _ => c
def Command.cdesc : Command → Line | .mk _ d _ _ _ => d
def Command.args : Command → Nat | .mk _ _ a _ _ => a
def Command.options : Command → List Opt | .mk _ _ _ o _ => o
def Command.subs : Command → List Command | .mk _ _ _ _ s => s

inductive GoErr : Type where
  | invocation : List Line → GoErr
  | contOptions : List Line → GoErr
  | contSubs : List Line → GoErr
deriving DecidableEq, Repr

/-- The result of `Forge` as seen by a Go caller: the pair `(c, err)`.
`fail none e` is `(nil, err)`; `fail (some c) e` is a non-nil `*Command`
returned together with a non-nil error; `panic` is a runtime panic
(or exhausted recursion fuel in this model). -/
inductive FR : Type where
  | panic : FR
  | fail : Option Command → GoErr → FR
  | ok : Command → FR

/-! ## Options (`setOptions`) -/

/-- The flag-name loop of `setOptions`:
split on spaces, drop one trailing comma, `--x` sets the long name,
`-x` the short name.  Accumulator `(long, short)`. -/
def pfGo : List Line → Line × Line → Line × Line
  | [], acc => acc
  | f :: rest, (lo, sh) =>
    let f' := trimSuff f (str ",")
    if isPrefOf (str "--") f' then pfGo rest (trimPref f' (str "--"), sh)
    else if isPrefOf (str "-") f' then pfGo rest (lo, trimPref f' (str "-"))
    else pfGo rest (lo, sh)

def parseFlags (opt : Line) : Line × Line := pfGo (splitSp opt) ([], [])

/-- `c.Options[len(c.Options)-1].Desc += " " + desc`. -/
def appendLastOptDesc : List Opt → Line → List Opt
  | [], _ => []
  | [o], ds => [⟨o.desc ++ ' ' :: ds, o.long, o.short⟩]
  | o :: rest, ds => o :: appendLastOptDesc rest ds

/-- The `for _, pair := range pairs` loop of `setOptions`.  The second
component is the error returned by `setOptions`; the first is the state of
`c.Options` when the loop stops (also on error, since appended options stay
on the node). -/
def optLoop (chain : List Line) : List (Line × Line) → List Opt → List Opt × Option GoErr
  | [], acc => (acc, none)
  | (p, d) :: rest, acc =>
    let o := trimSpace p
    let ds := trimSpace d
    if o = [] then
      if acc = [] then (acc, some (.contOptions chain))
      else optLoop chain rest (appendLastOptDesc acc ds)
    else
      let f := parseFlags o
      optLoop chain rest (acc ++ [⟨ds, f.1, f.2⟩])

/-- The iteration order of a `pairsMap`; a run of the Go program corresponds
to some `ko` with `(ko pm).Perm (pm.map Prod.fst)` for every `pm`. -/
abbrev KeyOrd := AList2 → List Line

def lookupA : AList2 → Line → List (Line × Line)
  | [], _ => []
  | (k', v) :: rest, k => if k' = k then v else lookupA rest k

/-- `pairs = append(pairs, v...)` over `range pairsMap` in the order `ko pm`. -/
def flattenPairs (ko : KeyOrd) (pm : AList2) : List (Line × Line) :=
  (ko pm).foldr (fun k acc => lookupA pm k ++ acc) []

/-- `(*Command).setOptions()`: `none` models a panic inside
`splitDescription`. -/
def setOptionsF (ko : KeyOrd) (vo : VoteOrd) (chain : List Line) (help : List Line) :
    Option (List Opt × Option GoErr) :=
  match splitDesc vo (scanHelp [str "Options:"] help) with
  | none => none
  | some pm => some (optLoop chain (flattenPairs ko pm) [])

/-! ## Subcommands (`setSubcommands`) and `Forge` -/

def subMarkers : List Line :=
  [str "Commands:", str "Available Commands:", str "Management Commands:"]

/-- `c.Subcommands[len(c.Subcommands)-1].Desc += " " + desc`. -/
def appendLastCmdDesc : List Command → Line → List Command
  | [], _ => []
  | [.mk ch d a o s], ds => [.mk ch (d ++ ' ' :: ds) a o s]
  | c :: rest, ds => c :: appendLastCmdDesc rest ds

/-- The `for _, pair := range pairs` loop of `setSubcommands`; `fsub cm ds`
is the recursive `Forge(cmd, c.Chain, desc)` call.  A failing child returns
its error and the parent keeps the subcommands appended so far. -/
def subLoop (fsub : Line → Line → FR) (chain : List Line) :
    List (Line × Line) → List Command → Option (List Command × Option GoErr)
  | [], acc => some (acc, none)
  | (p, d) :: rest, acc =>
    let cm := trimSpace p
    let ds := trimSpace d
    if cm = [] then
      if acc.isEmpty then some (acc, some (.contSubs chain))
      else subLoop fsub chain rest (appendLastCmdDesc acc ds)
    else
      match fsub cm ds with
      | .panic => none
      | .fail _ e => some (acc, some e)
      | .ok sub => subLoop fsub chain rest (acc ++ [sub])

/-- `(*Command).setSubcommands()`: outer `none` models a panic. -/
def setSubsF (fsub : Line → Line → FR) (ko : KeyOrd) (vo : VoteOrd)
    (chain : List Line) (help : List Line) : Option (List Command × Option GoErr) :=
  match splitDesc vo (scanHelp subMarkers help) with
  | none => none
  | some pm => subLoop fsub chain (flattenPairs ko pm) []

/-- The external `--help` invocation: maps a full argument vector to the
captured output lines, `none` being a non-zero exit / start failure. -/
abbrev Invoker := List Line → Option (List Line)

/-- The body of `Forge(cmd, chain, desc)` after the external invocation
succeeded with output `msg`; `fsub` performs the recursive calls. -/
def forgeBody (fsub : Line → Line → FR) (ko : KeyOrd) (vo : VoteOrd)
    (cmd : Line) (chain : List Line) (desc : Line) (msg : List Line) : FR :=
  let nc := chain ++ [cmd]
  let args := setArgument nc msg
  match setOptionsF ko vo nc msg with
  | none => .panic
  | some (opts, some e) => .fail (some (.mk nc desc args opts [])) e
  | some (opts, none) =>
    match setSubsF fsub ko vo nc msg with
    | none => .panic
    | some (subs, some e) => .fail (some (.mk nc desc args opts subs)) e
    | some (subs, none) => .ok (.mk nc desc args opts subs)

/-- `Forge(cmd, chain, desc)`.  Recursion is bounded by explicit fuel (the Go
code has no depth bound; its termination relies on the external tool's
hierarchy being finite).  Exhausted fuel is mapped to `.panic`, i.e. "did not
return normally". -/
def forge : Nat → Invoker → KeyOrd → VoteOrd → Line → List Line → Line → FR
  | 0, _, _, _, _, _, _ => .panic
  | fuel + 1, inv, ko, vo, cmd, chain, desc =>
    match inv (chain ++ [cmd, str "--help"]) with
    | none => .fail none (.invocation (chain ++ [cmd, str "--help"]))
    | some msg => forgeBody (fun cm ds => forge fuel inv ko vo cm (chain ++ [cmd]) ds)
        ko vo cmd chain desc msg

/-! ## Canonical iteration orders

Witnesses instantiate the quantified map-iteration orders with these
canonical choices; `keyOrdC` enumerates keys in insertion order and
`voteOrdC` enumerates vote-map keys in ascending order.  Both are valid
iteration orders (permutations of the respective key sets). -/

def keyOrdC : KeyOrd := fun pm => pm.map Prod.fst

def voteOrdC : VoteOrd := fun g => support g

/-- An equally legitimate iteration order: the keys in reverse insertion
order (Go's map iteration order is unspecified and randomized). -/
def revOrd : KeyOrd := fun pm => (pm.map Prod.fst).reverse

/-- Does `pat` occur in `s` as a contiguous substring?  (This is the literal
"appears in" relation of the specification, as opposed to appearing as a
maximal character-class run, which is what the code matches.) -/
def occursIn (pat s : Line) : Bool :=
  (List.range (s.length + 1)).any (fun i => decide ((s.drop i).take pat.length = pat))

/-- The upper-case keyword table of `setArgument`, arranged by flag bit:
`kwsU k` are the `[A-Z_]+` tokens that set bit `k` of the argument mask. -/
def kwsU : Nat → List Line
  | 0 => [str "CONFIG"]
  | 1 => [str "CONTAINER"]
  | 2 => [str "IMAGE", str "SOURCE_IMAGE", str "TARGET_IMAGE"]
  | 3 => [str "NETWORK"]
  | 4 => [str "NODE"]
  | 5 => [str "PLUGIN"]
  | 6 => [str "SECRET"]
  | 7 => [str "SERVICE"]
  | 8 => [str "STACK"]
  | 9 => [str "VOLUME"]
  | 10 => [str "KEY_FILE"]
  | _ => []

/-! ## Concrete scenario data -/

/-- Scenario A help text: `docker rm --help`. -/
def helpA : List Line :=
  [str "Usage:  docker rm CONTAINER [CONTAINER...]",
   str "",
   str "Options:",
   str "  -f, --force    Force the removal"]

def invA : Invoker := fun a =>
  if a = [str "docker", str "rm", str "--help"] then some helpA else none

def nodeA : Command :=
  .mk [str "docker", str "rm"] [] 2 [⟨str "Force the removal", str "force", str "f"⟩] []

/-- Scenario B help text: `docker network --help`. -/
def helpB : List Line :=
  [str "Usage:  docker network COMMAND",
   str "",
   str "Commands:",
   str "  connect  Connect a container to a network",
   str "  create   Create a network"]

def invB : Invoker := fun a =>
  if a = [str "docker", str "network", str "--help"] then some helpB
  else if a = [str "docker", str "network", str "connect", str "--help"] then some []
  else if a = [str "docker", str "network", str "create", str "--help"] then some []
  else none

def nodeB : Command :=
  .mk [str "docker", str "network"] [] 0 []
    [.mk [str "docker", str "network", str "connect"]
        (str "Connect a container to a network") 0 [] [],
     .mk [str "docker", str "network", str "create"]
        (str "Create a network") 0 [] []]

/-- A help text whose options section opens with a continuation line:
`setOptions` fails, and `Forge` returns the error together with the
partially built node. -/
def helpC1 : List Line :=
  [str "Usage:  docker rm CONTAINER",
   str "",
   str "Options:",
   str "              Lost text"]

def invC1 : Invoker := fun a =>
  if a = [str "docker", str "rm", str "--help"] then some helpC1 else none

/-- A help text with subcommand sections under two different markers. -/
def helpC2 : List Line :=
  [str "Usage:  docker",
   str "",
   str "Management Commands:",
   str "  alpha  Alpha command",
   str "",
   str "Commands:",
   str "  beta  Beta command"]

def invC2 : Invoker := fun a =>
  if a = [str "docker", str "--help"] then some helpC2
  else if a = [str "docker", str "alpha", str "--help"] then some []
  else if a = [str "docker", str "beta", str "--help"] then some []
  else none

/-- The `pairsMap` arising from `helpC2`'s subcommand sections. -/
def pmC2 : AList2 :=
  [(str "Management Commands:", [(str "  alpha  ", str "Alpha command")]),
   (str "Commands:", [(str "  beta  ", str "Beta command")])]

/-- Scenario C options section, literally as the specification gives it. -/
def helpC7 : List Line :=
  [str "Options:",
   str "-h, --help    Print usage",
   str "  information"]

/-- Scenario C with the continuation line indented up to the split column
(as in real docker help output). -/
def helpC7b : List Line :=
  [str "Options:",
   str "-h, --help    Print usage",
   str "              information"]

/-- A continuation line at the start of a "Commands:" section that follows
a populated "Management Commands:" section. -/
def helpC9 : List Line :=
  [str "Management Commands:",
   str "  alpha  Alpha desc",
   str "",
   str "Commands:",
   str "           Orphan text"]

def invC9 : Invoker := fun a =>
  if a = [str "tool", str "--help"] then some helpC9
  else if a = [str "tool", str "alpha", str "--help"] then some []
  else none

/-- The ColumnSplitter tie group: both lines vote once, for columns 2 and 3
respectively. -/
def gTie : List Line := [str "a B", str "ab C"]

/-- The Scenario C line group (the continuation line is 13 characters long,
shorter than the chosen split column 14). -/
def gC7 : List Line := [str "-h, --help    Print usage", str "  information"]

section Theorems

/-! ## Shared helper lemmas -/

theorem keyOrdC_valid (pm : AList2) : (keyOrdC pm).Perm (pm.map Prod.fst) :=
  List.Perm.refl _

theorem voteOrdC_valid (g : List Line) : (voteOrdC g).Perm (support g) :=
  List.Perm.refl _

theorem revOrd_valid (pm : AList2) : (revOrd pm).Perm (pm.map Prod.fst) :=
  List.reverse_perm _

theorem forge_succ (fuel : Nat) (inv : Invoker) (ko : KeyOrd) (vo : VoteOrd)
    (cmd : Line) (chain : List Line) (desc : Line) :
    forge (fuel + 1) inv ko vo cmd chain desc
      = match inv (chain ++ [cmd, str "--help"]) with
        | none => .fail none (.invocation (chain ++ [cmd, str "--help"]))
        | some msg =>
          forgeBody (fun cm ds => forge fuel inv ko vo cm (chain ++ [cmd]) ds)
            ko vo cmd chain desc msg := rfl

theorem subLoop_nil (f : Line → Line → FR) (chain : List Line) (acc : List Command) :
    subLoop f chain [] acc = some (acc, none) := rfl

theorem subLoop_cons_entry (f : Line → Line → FR) (chain : List Line) (p d : Line)
    (rest : List (Line × Line)) (acc : List Command) (hp : trimSpace p ≠ []) :
    subLoop f chain ((p, d) :: rest) acc
      = match f (trimSpace p) (trimSpace d) with
        | .panic => none
        | .fail _c e => some (acc, some e)
        | .ok sub => subLoop f chain rest (acc ++ [sub]) := by
  simp only [subLoop, if_neg hp]

/-- A node whose help output is empty builds into a leaf with no arguments,
options or subcommands. -/
theorem forge_empty_help (fuel : Nat) (inv : Invoker) (ko : KeyOrd) (vo : VoteOrd)
    (cmd : Line) (chain : List Line) (desc : Line)
    (hinv : inv (chain ++ [cmd, str "--help"]) = some [])
    (hk0 : ko ([] : AList2) = []) :
    forge (fuel + 1) inv ko vo cmd chain desc = .ok (.mk (chain ++ [cmd]) desc 0 [] []) := by
  rw [forge_succ, hinv]
  simp only [forgeBody, setOptionsF, setSubsF]
  simp only [show ∀ ms, scanHelp ms ([] : List Line) = [] from fun _ => rfl]
  simp only [splitDesc, flattenPairs, hk0]
  rfl

theorem selGo_votes_le (c : Nat → Nat) (L : List Nat) : ∀ st : Nat × Nat,
    st.2 ≤ (selGo c L st).2 := by
  induction L with
  | nil => intro st; exact le_refl _
  | cons k rest ih =>
    intro st
    simp only [selGo]
    by_cases h : c k > st.2
    · simp only [if_pos h]
      exact le_trans (le_of_lt h) (ih (k, c k))
    · simp only [if_neg h]
      exact ih st

theorem selGo_mem_le (c : Nat → Nat) (L : List Nat) : ∀ (st : Nat × Nat) (k : Nat),
    k ∈ L → c k ≤ (selGo c L st).2 := by
  induction L with
  | nil => intro st k hk; cases hk
  | cons a rest ih =>
    intro st k hk
    simp only [selGo]
    rcases List.mem_cons.mp hk with h | h
    · subst h
      by_cases hca : c k > st.2
      · simp only [if_pos hca]
        exact selGo_votes_le c rest (k, c k)
      · simp only [if_neg hca]
        exact le_trans (Nat.le_of_not_lt hca) (selGo_votes_le c rest st)
    · by_cases hca : c a > st.2
      · simp only [if_pos hca]
        exact ih _ k h
      · simp only [if_neg hca]
        exact ih st k h

theorem selGo_result (c : Nat → Nat) (L : List Nat) : ∀ st : Nat × Nat,
    st.2 = c st.1 ∨ st.2 = 0 →
    (selGo c L st).2 = c (selGo c L st).1 ∨ (selGo c L st).2 = 0 := by
  induction L with
  | nil => intro st h; exact h
  | cons k rest ih =>
    intro st h
    simp only [selGo]
    by_cases hca : c k > st.2
    · simp only [if_pos hca]
      exact ih (k, c k) (Or.inl rfl)
    · simp only [if_neg hca]
      exact ih st h

theorem mem_candidates_lt (l : Line) (i : Nat) (h : i ∈ candidates l) : i < l.length :=
  List.mem_range.mp (List.mem_filter.mp h).1

theorem len_le_maxLen (g : List Line) (l : Line) (hl : l ∈ g) : l.length ≤ maxLen g := by
  induction g with
  | nil => cases hl
  | cons a rest ih =>
    rcases List.mem_cons.mp hl with h | h
    · subst h
      exact le_max_left _ _
    · exact le_trans (ih h) (le_max_right _ _)

theorem cnt_ne_mem_support (g : List Line) (j : Nat) (h : cnt g j ≠ 0) : j ∈ support g := by
  have hmem : j ∈ (g.map candidates).flatten := by
    by_contra hc
    exact h (List.count_eq_zero.mpr hc)
  rcases List.mem_flatten.mp hmem with ⟨cs, hcs, hj⟩
  rcases List.mem_map.mp hcs with ⟨l, hl, rfl⟩
  refine List.mem_filter.mpr ⟨List.mem_range.mpr ?_, by simpa using h⟩
  exact Nat.lt_succ_of_lt (lt_of_lt_of_le (mem_candidates_lt l j hj) (len_le_maxLen g l hl))

/-- Helper for `splitGroup`: with a split column not exceeding any line's
length, the per-line slicing loop succeeds on every line. -/
theorem splitFold_total (i : Nat) : ∀ g : List Line, (∀ l ∈ g, i ≤ l.length) →
    (g.foldr (fun l acc =>
      match goSlice l i, acc with
      | some p, some ps => some (p :: ps)
      | _, _ => none) (some []))
    = some (g.map fun l => (l.take i, l.drop i)) := by
  intro g
  induction g with
  | nil => intro _; rfl
  | cons a rest ih =>
    intro h
    have ha : i ≤ a.length := h a (List.mem_cons_self a rest)
    rw [List.foldr_cons, ih (fun l hl => h l (List.mem_cons_of_mem a hl))]
    simp [goSlice, ha]

theorem addTo_fst_mem (k v : Line) : ∀ (al : AList) (x : Line),
    x ∈ (addTo al k v).map Prod.fst ↔ (x ∈ al.map Prod.fst ∨ x = k) := by
  intro al
  induction al with
  | nil => intro x; simp [addTo]
  | cons e rest ih =>
    intro x
    by_cases h : e.1 = k
    · simp only [addTo, if_pos h]
      subst h
      simp [or_assoc]
      tauto
    · simp only [addTo]
      rw [if_neg ?hn]
      case hn => cases e; exact h
      cases e
      simp [ih, or_assoc]

theorem addTo_fst_nodup (k v : Line) : ∀ (al : AList),
    (al.map Prod.fst).Nodup → ((addTo al k v).map Prod.fst).Nodup := by
  intro al
  induction al with
  | nil => intro _; simp [addTo]
  | cons e rest ih =>
    intro hnd
    by_cases h : e.1 = k
    · simp only [addTo, if_pos h]
      cases e
      simpa using hnd
    · simp only [addTo]
      rw [if_neg ?hn]
      case hn => cases e; exact h
      cases e with
      | mk k' vs =>
        simp only [List.map_cons, List.nodup_cons] at hnd ⊢
        refine ⟨fun hmem => ?_, ih hnd.2⟩
        rcases (addTo_fst_mem k v rest k').mp hmem with hm | hm
        · exact hnd.1 hm
        · exact h hm

theorem scanStep_keys (markers : List Line) (st : AList × Line) (line : Line)
    (h1 : ∀ x ∈ st.1.map Prod.fst, x ∈ markers)
    (h2 : st.2 = [] ∨ st.2 ∈ markers)
    (h3 : (st.1.map Prod.fst).Nodup) :
    (∀ x ∈ (scanStep markers st line).1.map Prod.fst, x ∈ markers)
    ∧ ((scanStep markers st line).2 = [] ∨ (scanStep markers st line).2 ∈ markers)
    ∧ ((scanStep markers st line).1.map Prod.fst).Nodup := by
  simp only [scanStep]
  by_cases hb : isBlankLine line
  · simp only [if_pos hb]
    exact ⟨h1, by simp, h3⟩
  · simp only [if_neg hb]
    cases hf : firstMarker markers line with
    | some m =>
      have hmm : m ∈ markers := List.mem_of_find?_eq_some hf
      by_cases ht : trimSpace (trimPref line m) = []
      · simp only [if_pos ht]
        exact ⟨h1, Or.inr hmm, h3⟩
      · simp only [if_neg ht]
        refine ⟨fun x hx => ?_, Or.inr hmm, addTo_fst_nodup _ _ _ h3⟩
        rcases (addTo_fst_mem m (trimPref line m) st.1 x).mp hx with hm | hm
        · exact h1 x hm
        · exact hm ▸ hmm
    | none =>
      by_cases hc : st.2 = []
      · simp only [if_pos hc]
        exact ⟨h1, h2, h3⟩
      · simp only [if_neg hc]
        have hcm : st.2 ∈ markers := h2.resolve_left hc
        refine ⟨fun x hx => ?_, h2, addTo_fst_nodup _ _ _ h3⟩
        rcases (addTo_fst_mem st.2 line st.1 x).mp hx with hm | hm
        · exact h1 x hm
        · exact hm ▸ hcm

theorem scanFold_keys (markers : List Line) : ∀ (lines : List Line) (st : AList × Line),
    (∀ x ∈ st.1.map Prod.fst, x ∈ markers) →
    (st.2 = [] ∨ st.2 ∈ markers) →
    (st.1.map Prod.fst).Nodup →
    (∀ x ∈ ((lines.foldl (scanStep markers) st).1.map Prod.fst), x ∈ markers)
    ∧ (((lines.foldl (scanStep markers) st).1.map Prod.fst)).Nodup := by
  intro lines
  induction lines with
  | nil => intro st h1 _ h3; exact ⟨h1, h3⟩
  | cons a rest ih =>
    intro st h1 h2 h3
    have hs := scanStep_keys markers st a h1 h2 h3
    exact ih (scanStep markers st a) hs.1 hs.2.1 hs.2.2

/-- `scanHelpMessage` called with a single marker returns a map with at most
one entry, so the Go `for _, v := range linesMap { lines = v; break }` in
`setArgument` (an arbitrary map entry) is deterministic: it is the head
entry whenever the map is non-empty. -/
theorem scanHelp_single_marker_len (m : Line) (lines : List Line) :
    (scanHelp [m] lines).length ≤ 1 := by
  have h := scanFold_keys [m] lines ([], []) (by simp) (by left; rfl) (by simp)
  rcases hs : scanHelp [m] lines with _ | ⟨e1, rest⟩
  · simp
  · rcases rest with _ | ⟨e2, rest'⟩
    · simp
    · exfalso
      rw [scanHelp] at hs
      rw [hs] at h
      have he1 : e1.1 ∈ [m] := h.1 e1.1 (by simp)
      have he2 : e2.1 ∈ [m] := h.1 e2.1 (by simp)
      simp only [List.mem_singleton] at he1 he2
      have := h.2
      simp [he1, he2] at this

/-! ## C3: split-column selection -/

/-- C3 (counterexample): on the tie group `gTie` (columns 2 and 3 each get
one vote) the selection loop of `splitDescription` returns column 2 when the
vote map is iterated as `[2, 3]` and column 3 when it is iterated as
`[3, 2]`; both orders are permutations of the map's key set, so the chosen
split column is neither always the lowest tied index nor a deterministic
function of the line group. -/
theorem selectIdx_tie_order_dependent :
    ([2, 3] : List Nat).Perm (support gTie) ∧ ([3, 2] : List Nat).Perm (support gTie)
    ∧ cnt gTie 2 = 1 ∧ cnt gTie 3 = 1
    ∧ selectIdx [2, 3] (cnt gTie) = 2 ∧ selectIdx [3, 2] (cnt gTie) = 3 :=
  ⟨by decide, by decide, rfl, rfl, rfl, rfl⟩

/-- C3 (amended): for every iteration order of the vote map (any permutation
of its key set), the split column chosen by `splitDescription`'s selection
loop carries a maximal vote count; which of several tied maximal columns is
chosen depends on the iteration order. -/
theorem selectIdx_max_votes (g : List Line) (order : List Nat)
    (ho : order.Perm (support g)) (j : Nat) :
    cnt g j ≤ cnt g (selectIdx order (cnt g)) := by
  by_cases hj : cnt g j = 0
  · simp [hj]
  · have hjo : j ∈ order := ho.mem_iff.mpr (cnt_ne_mem_support g j hj)
    have h1 : cnt g j ≤ (selGo (cnt g) order (0, 0)).2 := selGo_mem_le _ _ _ j hjo
    rcases selGo_result (cnt g) order (0, 0) (Or.inr rfl) with h2 | h2
    · exact le_trans h1 (le_of_eq h2)
    · exact absurd (Nat.le_zero.mp (h2 ▸ h1)) hj

/-- Witness for `selectIdx_max_votes`: a concrete group, order and column. -/
theorem selectIdx_max_votes_witness :
    cnt gTie 3 ≤ cnt gTie (selectIdx [3, 2] (cnt gTie)) :=
  selectIdx_max_votes gTie [3, 2] (by decide) 3

/-! ## C4: blank lines and section groups -/

/-- C4 (counterexample): two occurrences of the marker `"Commands:"`
separated by a blank line do not yield two separate groups — the scanner
returns a single map entry whose line group concatenates the lines of both
occurrences (while the line `"zzz"` after the blank and before the second
marker is discarded). -/
theorem scanHelp_same_marker_merge :
    scanHelp [str "Commands:"]
      [str "Commands:", str "  a  Alpha", str "", str "zzz",
       str "Commands:", str "  c  Gamma"]
    = [(str "Commands:", [str "  a  Alpha", str "  c  Gamma"])] := rfl

/-- C4 (amended): a blank line terminates the current line group — a
non-blank, non-marker line following a blank line is discarded, exactly as
if it were absent.  (But when the same marker reappears, its lines are
appended to the marker's existing map entry: see
`scanHelp_same_marker_merge`.) -/
theorem scanHelp_blank_terminates_group (markers : List Line)
    (pre post : List Line) (b l : Line)
    (hb : isBlankLine b = true) (hl : isBlankLine l = false)
    (hm : firstMarker markers l = none) :
    scanHelp markers (pre ++ b :: l :: post) = scanHelp markers (pre ++ b :: post) := by
  simp [scanHelp, List.foldl_append, scanStep, hb, hl, hm]

/-- Witness for `scanHelp_blank_terminates_group` at a concrete input. -/
theorem scanHelp_blank_terminates_group_witness :
    scanHelp [str "Commands:"]
      ([str "Commands:", str "  a  Alpha"] ++ str "" :: str "zzz" :: [str "tail"])
    = scanHelp [str "Commands:"] ([str "Commands:", str "  a  Alpha"] ++ str "" :: [str "tail"]) :=
  scanHelp_blank_terminates_group [str "Commands:"] [str "Commands:", str "  a  Alpha"]
    [str "tail"] (str "") (str "zzz") rfl rfl rfl

/-! ## C6: usage-line prefix mismatch -/

/-- Helper: the line loop of `setArgument` returns 0 whenever some line
fails the chain-prefix test, regardless of flags accumulated earlier. -/
theorem argGo_mismatch_zero (cs : Line) : ∀ (lines : List Line) (n : Nat) (l : Line),
    l ∈ lines → trimPref (trimSpace l) cs = trimSpace l → argGo cs lines n = 0 := by
  intro lines
  induction lines with
  | nil => intro n l hl _; cases hl
  | cons a rest ih =>
    intro n l hl hm
    rcases List.mem_cons.mp hl with h | h
    · subst h
      simp [argGo, hm]
    · by_cases ha : trimPref (trimSpace a) cs = trimSpace a
      · simp [argGo, ha]
      · simp only [argGo, if_neg ha]
        exact ih _ l h hm

/-- C6: if any line of the usage section, once trimmed, does not start with
the node's space-joined chain, `setArgument` stores 0 — the empty argument
mask — even when other usage lines did match and contained recognized
keywords; no error is reported (the function has no error channel). -/
theorem setArgument_mismatch_empty (chain : List Line) (help : List Line) (l : Line)
    (hl : l ∈ usageGroup help)
    (hm : trimPref (trimSpace l) (chainString chain) = trimSpace l) :
    setArgument chain help = 0 :=
  argGo_mismatch_zero _ _ 0 l hl hm

/-- Witness for `setArgument_mismatch_empty`: the first usage line matches
the chain `docker rm` and contains `CONTAINER`, the second does not match,
so the mask is empty. -/
theorem setArgument_mismatch_empty_witness :
    setArgument [str "docker", str "rm"]
      [str "Usage:  docker rm CONTAINER", str "  foo bar"] = 0 :=
  setArgument_mismatch_empty [str "docker", str "rm"]
    [str "Usage:  docker rm CONTAINER", str "  foo bar"]
    (str "  foo bar") (by decide) (by decide)

/-! ## C9: continuation lines before the first entry -/

/-- C9 (counterexample): a continuation line at the head of the
`"Commands:"` section — a section with no entries of its own — does not
abort construction when a previously processed `"Management Commands:"`
section already produced a subcommand: the orphan text is appended to that
other section's last entry and `Forge` succeeds. -/
theorem forge_orphan_continuation_no_error :
    scanHelp subMarkers helpC9
      = [(str "Management Commands:", [str "  alpha  Alpha desc"]),
         (str "Commands:", [str "           Orphan text"])]
    ∧ forge 2 invC9 keyOrdC voteOrdC (str "tool") [] []
      = .ok (.mk [str "tool"] [] 0 []
          [.mk [str "tool", str "alpha"] (str "Alpha desc Orphan text") 0 [] []]) :=
  ⟨rfl, rfl⟩

/-- C9 (amended): the continuation error is raised exactly when a
continuation line is processed while no entry of its kind has been built
for the node at all: if the first pair of the flattened section is a
continuation (name field empty after trimming), both the option loop and
the subcommand loop fail with the respective continuation error and produce
no entry. -/
theorem contError_before_first_entry (chain : List Line) (p d : Line)
    (rest : List (Line × Line)) (hp : trimSpace p = []) (fsub : Line → Line → FR) :
    optLoop chain ((p, d) :: rest) [] = ([], some (.contOptions chain))
    ∧ subLoop fsub chain ((p, d) :: rest) [] = some ([], some (.contSubs chain)) := by
  constructor
  · simp [optLoop, hp]
  · simp [subLoop, hp]

/-- Witness for `contError_before_first_entry` at a concrete pair list. -/
theorem contError_before_first_entry_witness :
    optLoop [str "docker"] [(str "   ", str "Stray")] []
      = ([], some (.contOptions [str "docker"]))
    ∧ subLoop (fun _ _ => FR.panic) [str "docker"] [(str "   ", str "Stray")] []
      = some ([], some (.contSubs [str "docker"])) :=
  contError_before_first_entry [str "docker"] (str "   ") (str "Stray") [] rfl
    (fun _ _ => FR.panic)

/-! ## C10: totality of the column split -/

/-- C10 (counterexample): on the Scenario C group the chosen split column is
14 but the continuation line is only 13 characters long, so slicing it at
the split column goes out of bounds — `splitDescription` panics instead of
returning a pair for every line. -/
theorem splitGroup_short_line_panics :
    support gC7 = [14] ∧ (str "  information").length = 13
    ∧ splitGroup [14] gC7 = none :=
  ⟨rfl, rfl, rfl⟩

/-- C10 (amended): the per-group split succeeds — returning one
(name, description) pair per line — exactly on groups in which every line
is at least as long as the chosen split column; a shorter line makes the
slice go out of bounds (a runtime panic). -/
theorem splitGroup_total (order : List Nat) (g : List Line)
    (h : ∀ l ∈ g, selectIdx order (cnt g) ≤ l.length) :
    splitGroup order g
      = some (g.map fun l =>
          (l.take (selectIdx order (cnt g)), l.drop (selectIdx order (cnt g)))) := by
  simp only [splitGroup]
  exact splitFold_total _ g h

/-- Witness for `splitGroup_total`: the Scenario A options group (split
column 17, line length 34). -/
theorem splitGroup_total_witness :
    splitGroup [17] [str "  -f, --force    Force the removal"]
      = some [(str "  -f, --force    ", str "Force the removal")] :=
  splitGroup_total [17] [str "  -f, --force    Force the removal"] (by decide)

/-! ## C1: all-or-nothing construction -/

/-- C1 (counterexample): when the options section of `helpC1` opens with a
continuation line, `setOptions` fails; `Forge` then returns the continuation
error *together with* a non-nil, partially built node — its chain and
argument mask (the container flag, bit value 2) are already populated.  The
caller thus receives a partially built node and an error at the same time. -/
theorem forge_partial_node_with_error :
    forge 1 invC1 keyOrdC voteOrdC (str "rm") [str "docker"] []
      = .fail (some (.mk [str "docker", str "rm"] [] 2 [] []))
          (.contOptions [str "docker", str "rm"]) := rfl

/-- C1 (amended): only when the external `--help` invocation itself fails
does the caller get a nil node with the error; option- or
subcommand-building failures return the error alongside the partially built
node (which callers are expected to ignore). -/
theorem forge_invocation_error_nil (fuel : Nat) (inv : Invoker) (ko : KeyOrd)
    (vo : VoteOrd) (cmd : Line) (chain : List Line) (desc : Line)
    (h : inv (chain ++ [cmd, str "--help"]) = none) :
    forge (fuel + 1) inv ko vo cmd chain desc
      = .fail none (.invocation (chain ++ [cmd, str "--help"])) := by
  rw [forge_succ, h]

/-- Witness for `forge_invocation_error_nil`: an invoker that always fails. -/
theorem forge_invocation_error_nil_witness :
    forge 1 (fun _ => none) keyOrdC voteOrdC (str "docker") [] []
      = .fail none (.invocation [str "docker", str "--help"]) :=
  forge_invocation_error_nil 0 (fun _ => none) keyOrdC voteOrdC (str "docker") [] [] rfl

/-! ## C2: list order versus help-text order -/

/-- C2 (counterexample): `helpC2` lists subcommand `alpha` (line index 3,
under "Management Commands:") before `beta` (line index 6, under
"Commands:").  Iterating the `pairsMap` in the order `revOrd` — a
permutation of its key set, hence a possible Go map iteration order —
produces the subcommand list `[beta, alpha]`, which does not preserve the
help-text order. -/
theorem forge_subcommand_order_map_dependent :
    (revOrd pmC2).Perm (pmC2.map Prod.fst)
    ∧ List.indexOf (str "  alpha  Alpha command") helpC2 = 3
    ∧ List.indexOf (str "  beta  Beta command") helpC2 = 6
    ∧ forge 2 invC2 revOrd voteOrdC (str "docker") [] []
      = .ok (.mk [str "docker"] [] 0 []
          [.mk [str "docker", str "beta"] (str "Beta command") 0 [] [],
           .mk [str "docker", str "alpha"] (str "Alpha command") 0 [] []]) :=
  ⟨revOrd_valid pmC2, rfl, rfl, rfl⟩

/-- C2 (amended, Scenario B): within a single marker's section help-text
order is preserved: for every valid pair of map-iteration orders, forging
`docker network` from `helpB` yields exactly the two subcommands `connect`
then `create`, in help-text order, each independently forged. -/
theorem forge_scenarioB (ko : KeyOrd) (vo : VoteOrd)
    (hko : ∀ pm, (ko pm).Perm (pm.map Prod.fst))
    (hvo : ∀ g, (vo g).Perm (support g)) :
    forge 2 invB ko vo (str "network") [str "docker"] [] = .ok nodeB := by
  have hv1 : vo [str "  connect  Connect a container to a network",
                 str "  create   Create a network"] = [11] :=
    List.perm_singleton.mp (hvo _)
  have hk1 : ko [(str "Commands:",
      [(str "  connect  ", str "Connect a container to a network"),
       (str "  create   ", str "Create a network")])] = [str "Commands:"] :=
    List.perm_singleton.mp (hko _)
  have hk0 : ko ([] : AList2) = [] := List.perm_nil.mp (hko [])
  have hconnect : forge 1 invB ko vo (str "connect") [str "docker", str "network"]
      (str "Connect a container to a network")
      = .ok (.mk [str "docker", str "network", str "connect"]
          (str "Connect a container to a network") 0 [] []) := by
    have h := forge_empty_help 0 invB ko vo (str "connect") [str "docker", str "network"]
      (str "Connect a container to a network") rfl hk0
    simpa using h
  have hcreate : forge 1 invB ko vo (str "create") [str "docker", str "network"]
      (str "Create a network")
      = .ok (.mk [str "docker", str "network", str "create"]
          (str "Create a network") 0 [] []) := by
    have h := forge_empty_help 0 invB ko vo (str "create") [str "docker", str "network"]
      (str "Create a network") rfl hk0
    simpa using h
  show forge (1 + 1) invB ko vo (str "network") [str "docker"] [] = .ok nodeB
  rw [forge_succ]
  simp only [show invB ([str "docker"] ++ [str "network", str "--help"]) = some helpB from rfl]
  simp only [forgeBody, setOptionsF, setSubsF]
  simp only [show scanHelp [str "Options:"] helpB = ([] : AList) from rfl,
    show scanHelp subMarkers helpB
      = [(str "Commands:", [str "  connect  Connect a container to a network",
                            str "  create   Create a network"])] from rfl]
  simp only [splitDesc, flattenPairs, hk0, hv1]
  simp only [show splitGroup [11] [str "  connect  Connect a container to a network",
      str "  create   Create a network"]
      = some [(str "  connect  ", str "Connect a container to a network"),
              (str "  create   ", str "Create a network")] from rfl]
  simp only [hk1]
  simp only [show (List.foldr (fun k acc => lookupA [(str "Commands:",
      [(str "  connect  ", str "Connect a container to a network"),
       (str "  create   ", str "Create a network")])] k ++ acc) []
      [str "Commands:"])
      = [(str "  connect  ", str "Connect a container to a network"),
         (str "  create   ", str "Create a network")] from rfl]
  rw [subLoop_cons_entry _ _ _ _ _ _ (by decide)]
  simp only [show trimSpace (str "  connect  ") = str "connect" from rfl,
    show trimSpace (str "Connect a container to a network")
      = str "Connect a container to a network" from rfl,
    show ([str "docker"] ++ [str "network"] : List Line) = [str "docker", str "network"] from rfl]
  simp only [hconnect]
  rw [subLoop_cons_entry _ _ _ _ _ _ (by decide)]
  simp only [show trimSpace (str "  create   ") = str "create" from rfl,
    show trimSpace (str "Create a network") = str "Create a network" from rfl]
  simp only [hcreate]
  simp only [subLoop_nil]
  rfl

/-- Witness for `forge_scenarioB`: the canonical iteration orders. -/
theorem forge_scenarioB_witness :
    forge 2 invB keyOrdC voteOrdC (str "network") [str "docker"] [] = .ok nodeB :=
  forge_scenarioB keyOrdC voteOrdC keyOrdC_valid voteOrdC_valid

/-! ## C5: Scenario A -/

/-- C5 (Scenario A): for every valid pair of map-iteration orders, forging
`docker rm` from `helpA` yields a node whose argument mask is exactly the
container flag (bit value 2) and whose single option is
`{desc "Force the removal", long "force", short "f"}`. -/
theorem forge_scenarioA (ko : KeyOrd) (vo : VoteOrd)
    (hko : ∀ pm, (ko pm).Perm (pm.map Prod.fst))
    (hvo : ∀ g, (vo g).Perm (support g)) :
    forge 1 invA ko vo (str "rm") [str "docker"] [] = .ok nodeA := by
  have hv1 : vo [str "  -f, --force    Force the removal"] = [17] :=
    List.perm_singleton.mp (hvo _)
  have hk1 : ko [(str "Options:", [(str "  -f, --force    ", str "Force the removal")])]
      = [str "Options:"] := List.perm_singleton.mp (hko _)
  have hk0 : ko ([] : AList2) = [] := List.perm_nil.mp (hko [])
  simp only [forge, forgeBody, setOptionsF, setSubsF]
  simp only [show invA ([str "docker"] ++ [str "rm", str "--help"]) = some helpA from rfl]
  simp only [show scanHelp [str "Options:"] helpA
      = [(str "Options:", [str "  -f, --force    Force the removal"])] from rfl]
  simp only [splitDesc]
  simp only [hv1]
  simp only [show splitGroup [17] [str "  -f, --force    Force the removal"]
      = some [(str "  -f, --force    ", str "Force the removal")] from rfl]
  simp only [flattenPairs, hk1, hk0]
  rfl

/-- Witness for `forge_scenarioA`: the canonical iteration orders. -/
theorem forge_scenarioA_witness :
    forge 1 invA keyOrdC voteOrdC (str "rm") [str "docker"] [] = .ok nodeA :=
  forge_scenarioA keyOrdC voteOrdC keyOrdC_valid voteOrdC_valid

/-! ## C7: Scenario C -/

/-- C7 (counterexample): on the literal Scenario C input the chosen split
column is 14, but the continuation line `"  information"` is only 13
characters long, so `setOptions` panics (slice out of bounds) instead of
building an option with description "Print usage information". -/
theorem setOptions_scenarioC_panics :
    support gC7 = [14]
    ∧ setOptionsF keyOrdC voteOrdC [str "docker"] helpC7 = none :=
  ⟨rfl, rfl⟩

/-- C7 (amended): with the continuation line indented up to the split
column (14 spaces, as in real docker help output), option building succeeds
for every valid pair of map-iteration orders and produces the single option
with description "Print usage information". -/
theorem setOptions_scenarioC_indented (ko : KeyOrd) (vo : VoteOrd)
    (hko : ∀ pm, (ko pm).Perm (pm.map Prod.fst))
    (hvo : ∀ g, (vo g).Perm (support g)) :
    setOptionsF ko vo [str "docker"] helpC7b
      = some ([⟨str "Print usage information", str "help", str "h"⟩], none) := by
  have hv1 : vo [str "-h, --help    Print usage", str "              information"] = [14] :=
    List.perm_singleton.mp (hvo _)
  have hk1 : ko [(str "Options:", [(str "-h, --help    ", str "Print usage"),
      (str "              ", str "information")])] = [str "Options:"] :=
    List.perm_singleton.mp (hko _)
  simp only [setOptionsF]
  simp only [show scanHelp [str "Options:"] helpC7b
      = [(str "Options:",
          [str "-h, --help    Print usage", str "              information"])] from rfl]
  simp only [splitDesc, hv1]
  simp only [show splitGroup [14]
      [str "-h, --help    Print usage", str "              information"]
      = some [(str "-h, --help    ", str "Print usage"),
              (str "              ", str "information")] from rfl]
  simp only [flattenPairs, hk1]
  rfl

/-- Witness for `setOptions_scenarioC_indented`: the canonical orders. -/
theorem setOptions_scenarioC_indented_witness :
    setOptionsF keyOrdC voteOrdC [str "docker"] helpC7b
      = some ([⟨str "Print usage information", str "help", str "h"⟩], none) :=
  setOptions_scenarioC_indented keyOrdC voteOrdC keyOrdC_valid voteOrdC_valid

/-! ## C8: argument-mask round-trip -/

theorem upperFlag_testBit (w : Line) (k : Nat) (hk : k ≤ 10) :
    Nat.testBit (upperFlag w) k = decide (w ∈ kwsU k) := by
  by_cases h1 : w = str "CONFIG"
  · subst h1; interval_cases k <;> decide
  by_cases h2 : w = str "CONTAINER"
  · subst h2; interval_cases k <;> decide
  by_cases h3 : w = str "IMAGE"
  · subst h3; interval_cases k <;> decide
  by_cases h4 : w = str "SOURCE_IMAGE"
  · subst h4; interval_cases k <;> decide
  by_cases h5 : w = str "TARGET_IMAGE"
  · subst h5; interval_cases k <;> decide
  by_cases h6 : w = str "NETWORK"
  · subst h6; interval_cases k <;> decide
  by_cases h7 : w = str "NODE"
  · subst h7; interval_cases k <;> decide
  by_cases h8 : w = str "PLUGIN"
  · subst h8; interval_cases k <;> decide
  by_cases h9 : w = str "SECRET"
  · subst h9; interval_cases k <;> decide
  by_cases h10 : w = str "SERVICE"
  · subst h10; interval_cases k <;> decide
  by_cases h11 : w = str "STACK"
  · subst h11; interval_cases k <;> decide
  by_cases h12 : w = str "VOLUME"
  · subst h12; interval_cases k <;> decide
  by_cases h13 : w = str "KEY_FILE"
  · subst h13; interval_cases k <;> decide
  have hz : upperFlag w = 0 := by
    simp only [upperFlag, if_neg h1, if_neg h2, if_neg h6, if_neg h7, if_neg h8,
      if_neg h9, if_neg h10, if_neg h11, if_neg h12, if_neg h13,
      if_neg (show ¬(w = str "IMAGE" ∨ w = str "SOURCE_IMAGE" ∨ w = str "TARGET_IMAGE") from
        fun h => h.elim h3 (fun h' => h'.elim h4 h5))]
  rw [hz, Nat.zero_testBit]
  symm
  rw [decide_eq_false_iff_not]
  intro hw
  interval_cases k <;> simp_all [kwsU]

theorem lowerFlag_testBit (w : Line) (k : Nat) (hk : k ≤ 10) :
    Nat.testBit (lowerFlag w) k = (decide (w = str "file") && decide (k = 10)) := by
  by_cases h : w = str "file"
  · subst h; interval_cases k <;> decide
  · simp only [lowerFlag, if_neg h, Nat.zero_testBit]
    simp [h]

theorem testBit_foldl_or (f : Line → Nat) (k : Nat) : ∀ (ws : List Line) (n : Nat),
    Nat.testBit (ws.foldl (fun m w => m ||| f w) n) k
      = (Nat.testBit n k || ws.any fun w => Nat.testBit (f w) k) := by
  intro ws
  induction ws with
  | nil => intro n; simp
  | cons a rest ih =>
    intro n
    simp only [List.foldl_cons, ih, List.any_cons, Nat.testBit_lor, Bool.or_assoc]

theorem any_and_const (p : Line → Bool) (c : Bool) (ws : List Line) :
    ws.any (fun w => p w && c) = (ws.any p && c) := by
  cases c <;> simp

/-- C8 (counterexample): on the usage line `docker rm CONTAINERS` the
keyword `CONTAINER` literally appears (as a substring) in the remainder
after stripping the chain, yet the computed argument mask is empty — the
code only matches keywords appearing as maximal `[A-Z_]+` runs, and the
maximal run here is `CONTAINERS`. -/
theorem argGo_substring_without_token :
    occursIn (str "CONTAINER")
        (trimPref (trimSpace (str "docker rm CONTAINERS")) (str "docker rm")) = true
    ∧ argGo (str "docker rm") [str "docker rm CONTAINERS"] 0 = 0 := ⟨rfl, rfl⟩

/-- C8 (amended): for a usage line whose trimmed text starts with the
chain, bit `k` of the computed argument mask is set exactly when one of the
keywords mapped to bit `k` occurs among the maximal `[A-Z_]+` runs of the
remainder — or, for the file bit (k = 10), when the token `file` occurs
among its maximal `[a-z_]+` runs. -/
theorem argGo_flag_iff_token_run (cs l : Line) (k : Nat) (hk : k ≤ 10)
    (hm : trimPref (trimSpace l) cs ≠ trimSpace l) :
    Nat.testBit (argGo cs [l] 0) k
      = ((upperRuns (trimPref (trimSpace l) cs)).any (fun w => decide (w ∈ kwsU k))
         || ((lowerRuns (trimPref (trimSpace l) cs)).any (fun w => decide (w = str "file"))
             && decide (k = 10))) := by
  simp only [argGo, if_neg hm]
  simp only [lineFlags]
  rw [testBit_foldl_or, testBit_foldl_or, Nat.zero_testBit]
  simp only [fun w => upperFlag_testBit w k hk, fun w => lowerFlag_testBit w k hk]
  rw [any_and_const]
  simp [Bool.or_assoc]

/-- Witness for `argGo_flag_iff_token_run`: the container bit of
`docker rm CONTAINER`. -/
theorem argGo_flag_iff_token_run_witness :
    Nat.testBit (argGo (str "docker rm") [str "docker rm CONTAINER"] 0) 1
      = ((upperRuns (trimPref (trimSpace (str "docker rm CONTAINER")) (str "docker rm"))).any
            (fun w => decide (w ∈ kwsU 1))
         || ((lowerRuns (trimPref (trimSpace (str "docker rm CONTAINER")) (str "docker rm"))).any
              (fun w => decide (w = str "file")) && decide ((1 : Nat) = 10))) :=
  argGo_flag_iff_token_run (str "docker rm") (str "docker rm CONTAINER") 1 (by decide) (by decide)

end Theorems

end FDC
